import Mathlib

/-!
Verification development for the presentation-graphics script `program_11.py`.

The script reads USGS discharge records and precomputed metric tables, clips
them to a date window, aggregates monthly statistics, computes Weibull
plotting positions for peak flows, and writes six PNG charts.

We shallowly embed the data-manipulating core:
  * `ReadData` (gross-error check on negative discharge, missing-value count),
  * `ClipData` (inclusive date-window restriction, missing-value count),
  * `GetMonthlyAverages` (12 calendar-month buckets, NaN-skipping means),
  * the exceedance-probability ranking loop of `__main__`
    (descending sort, plotting positions (i+1)/n),
  * the six chart specifications of `__main__` (filename, figsize, dpi,
    global font size), transcribed literally from the savefig calls.

Dates are modelled as natural numbers (only their order matters), discharge
and statistic values as `Option ℚ` where `none` plays the role of `NaN`
(pandas skips NaN in `.mean()`, `isna` detects it, and the gross-error check
writes it). Tables are lists of rows; a pandas label-slice
`DataDF[startDate:endDate]` on the monotone date index is embedded as the
inclusive-window filter.
-/

namespace Program11

/-- Row of the raw discharge table produced by `ReadData` before the
gross-error check: columns agency_cd, site_no, Date (index), Discharge,
Quality; `discharge = none` models `np.NaN` (empty field or the `Eqp`
sentinel mapped by `na_values`). -/
structure RawRow where
  agency_cd : String
  site_no : String
  date : ℕ
  discharge : Option ℚ
  quality : String
deriving Repr, DecidableEq

/-- Gross-error check on one discharge entry, from
`DataDF['Discharge'].loc[(DataDF['Discharge'] < 0)] = np.NaN`:
a present value below zero becomes missing, everything else is unchanged. -/
def grossErrorCheck (d : Option ℚ) : Option ℚ :=
  match d with
  | some v => if v < 0 then none else some v
  | none => none

/-- Count of missing discharge entries, from
`DataDF["Discharge"].isna().sum()`. -/
def countMissing (rows : List RawRow) : ℕ :=
  (rows.filter (fun r => r.discharge.isNone)).length

/-- Embedding of `ReadData` after parsing: applies the gross-error check to
the Discharge column of every row and returns the table together with the
missing-value count over the full file span. -/
def ReadData (rows : List RawRow) : List RawRow × ℕ :=
  let cleaned := rows.map (fun r => { r with discharge := grossErrorCheck r.discharge })
  (cleaned, countMissing cleaned)

/-- Embedding of `ClipData`: `DataDF[startDate:endDate]` keeps exactly the
rows whose date lies in the inclusive window, then the missing-value count
is recomputed on the clipped table. -/
def ClipData (rows : List RawRow) (startDate endDate : ℕ) : List RawRow × ℕ :=
  let clipped := rows.filter (fun r => startDate ≤ r.date && r.date ≤ endDate)
  (clipped, countMissing clipped)

/-- Row of a monthly-metrics table as consumed by `GetMonthlyAverages`:
the calendar month carried by the row's date index, and one entry per
numeric statistic column (`none` models `NaN`). -/
structure MonthlyRow where
  month : ℕ
  values : List (Option ℚ)
deriving Repr, DecidableEq

/-- NaN-skipping mean of one column, as pandas `.mean()` computes it:
the arithmetic mean of the non-missing entries, or missing when every
entry is missing. -/
def meanSkipNA (vs : List (Option ℚ)) : Option ℚ :=
  let present := vs.filterMap id
  if present.length = 0 then none
  else some (present.sum / present.length)

/-- Rows of the month-`m` bucket, from `MoDataDF.loc[dates.month == (i+1)]`. -/
def monthBucket (rows : List MonthlyRow) (m : ℕ) : List MonthlyRow :=
  rows.filter (fun r => r.month == m)

/-- Column of per-statistic means for one bucket: entry `j` is the
NaN-skipping mean of statistic column `j` across the bucket's rows. -/
def bucketMeans (nStats : ℕ) (bucket : List MonthlyRow) : List (Option ℚ) :=
  (List.range nStats).map (fun j => meanSkipNA (bucket.map (fun r => r.values.getD j none)))

/-- Embedding of `GetMonthlyAverages`: for each month number 1..12 in order,
the column of across-year means of every statistic over that month's bucket;
the result pairs each month label with its column (the DataFrame built from
the dictionary `{1: MonthAVG[0], ..., 12: MonthAVG[11]}`). -/
def GetMonthlyAverages (nStats : ℕ) (rows : List MonthlyRow) : List (ℕ × List (Option ℚ)) :=
  (List.range 12).map (fun i => (i + 1, bucketMeans nStats (monthBucket rows (i + 1))))

/-- Cell access in the monthly-averages table: statistic row `j` of the
column labelled by month `m` (1-indexed). -/
def cellAt (table : List (ℕ × List (Option ℚ))) (m j : ℕ) : Option ℚ :=
  ((table.getD (m - 1) (0, [])).2).getD j none

/-- Descending sort, from `sort_values(ascending=False)`. -/
def sortDescending (xs : List ℚ) : List ℚ :=
  List.insertionSort (fun a b => b ≤ a) xs

/-- Plotting positions, from the loop
`for i in range(n): pp.append((i+1)/n)`: one division per loop iteration,
each with denominator `n`. -/
def plottingPositions (n : ℕ) : List ℚ :=
  (List.range n).map (fun (i : ℕ) => ((i : ℚ) + 1) / (n : ℚ))

/-- Exceedance ranker of `__main__`: the peak-flow series sorted descending
together with the plotting positions for its length. -/
def exceedanceRanker (xs : List ℚ) : List ℚ × List ℚ :=
  (plottingPositions xs.length, sortDescending xs)

/-- One chart written by `__main__`: output filename, figure size passed to
`plt.figure(figsize=...)`, and the dpi passed to `plt.savefig`. -/
structure ChartSpec where
  filename : String
  figWidth : ℚ
  figHeight : ℚ
  dpi : ℕ
deriving Repr, DecidableEq

/-- Global base font size, from `plt.rcParams.update({'font.size': 20})`. -/
def fontSize : ℕ := 20

/-- The six charts of one complete run, transcribed in program order from
the six `plt.figure(figsize=(9,6.5)) ... plt.savefig(name, dpi=96)` blocks;
these savefig calls are the only persisted outputs of the script. -/
def charts : List ChartSpec :=
  [ ⟨"DailyDischarge5Year.png", 9, 13/2, 96⟩
  , ⟨"AnnualCoeffVar.png", 9, 13/2, 96⟩
  , ⟨"AnnualTQmean.png", 9, 13/2, 96⟩
  , ⟨"AnnualRBindex.png", 9, 13/2, 96⟩
  , ⟨"MonthlyMeanFlow.png", 9, 13/2, 96⟩
  , ⟨"ExceedanceProbability.png", 9, 13/2, 96⟩ ]

end Program11

namespace Program11

instance : IsTotal ℚ (fun a b : ℚ => b ≤ a) :=
  ⟨fun a b => le_total b a⟩

instance : IsTrans ℚ (fun a b : ℚ => b ≤ a) :=
  ⟨fun _ _ _ hab hbc => le_trans hbc hab⟩

lemma sortDescending_sorted (xs : List ℚ) :
    (sortDescending xs).Sorted (fun a b : ℚ => b ≤ a) :=
  List.sorted_insertionSort _ xs

lemma sortDescending_perm (xs : List ℚ) : (sortDescending xs).Perm xs :=
  List.perm_insertionSort _ xs

lemma plottingPositions_length (n : ℕ) : (plottingPositions n).length = n := by
  simp only [plottingPositions, List.length_map, List.length_range]

lemma plottingPositions_get (n i : ℕ) (hi : i < (plottingPositions n).length) :
    (plottingPositions n).get ⟨i, hi⟩ = ((i : ℚ) + 1) / (n : ℚ) := by
  simp only [plottingPositions, List.get_eq_getElem, List.getElem_map, List.getElem_range]

lemma plottingPositions_strictMono (n : ℕ) (hn : 0 < n) :
    (plottingPositions n).Pairwise (· < ·) := by
  have hcast : (0 : ℚ) < (n : ℚ) := by exact_mod_cast hn
  rw [plottingPositions]
  refine List.Pairwise.map _ ?_ (List.pairwise_lt_range n)
  intro a b hab
  rw [div_lt_div_iff_of_pos_right hcast]
  exact_mod_cast Nat.succ_lt_succ hab

lemma plottingPositions_mem (n : ℕ) (hn : 0 < n) (p : ℚ)
    (hp : p ∈ plottingPositions n) : 0 < p ∧ p ≤ 1 := by
  have hcast : (0 : ℚ) < (n : ℚ) := by exact_mod_cast hn
  rw [plottingPositions, List.mem_map] at hp
  obtain ⟨i, hi, rfl⟩ := hp
  rw [List.mem_range] at hi
  constructor
  · exact div_pos (by positivity) hcast
  · rw [div_le_one hcast]
    exact_mod_cast hi

lemma plottingPositions_head (n : ℕ) (hn : 0 < n) :
    (plottingPositions n).head? = some (1 / (n : ℚ)) := by
  obtain ⟨m, rfl⟩ := Nat.exists_eq_succ_of_ne_zero hn.ne'
  rw [plottingPositions, List.range_succ_eq_map, List.map_cons, List.head?_cons]
  norm_num

lemma plottingPositions_getLast (n : ℕ) (hn : 0 < n) :
    (plottingPositions n).getLast? = some 1 := by
  obtain ⟨m, rfl⟩ := Nat.exists_eq_succ_of_ne_zero hn.ne'
  rw [plottingPositions, List.range_succ, List.map_append, List.map_cons, List.map_nil,
    List.getLast?_concat]
  have hne : ((m : ℚ) + 1) ≠ 0 := by positivity
  push_cast
  rw [div_self hne]

lemma exceedanceRanker_concrete :
    exceedanceRanker [100, 50, 75] = ([1/3, 2/3, 1], [100, 75, 50]) := by
  simp only [exceedanceRanker, plottingPositions, sortDescending]
  norm_num [List.insertionSort, List.orderedInsert, List.range_succ]

/-- C1: for every non-empty peak-flow series the Exceedance Ranker returns
the values sorted descending (a permutation of the input) together with
plotting positions of the same length n, where rank i (1-indexed) gets
p_i = i / n; the positions are strictly increasing, lie in (0, 1], the
first is 1/n and the last is 1; and [100, 50, 75] yields
([1/3, 2/3, 1], [100, 75, 50]). -/
theorem exceedanceRanker_spec (xs : List ℚ) (h : xs ≠ []) :
    (exceedanceRanker xs).2.Sorted (fun a b : ℚ => b ≤ a) ∧
    (exceedanceRanker xs).2.Perm xs ∧
    (exceedanceRanker xs).1.length = xs.length ∧
    (exceedanceRanker xs).2.length = xs.length ∧
    (∀ i (hi : i < (exceedanceRanker xs).1.length),
      (exceedanceRanker xs).1.get ⟨i, hi⟩ = ((i : ℚ) + 1) / (xs.length : ℚ)) ∧
    (exceedanceRanker xs).1.Pairwise (· < ·) ∧
    (∀ p ∈ (exceedanceRanker xs).1, 0 < p ∧ p ≤ 1) ∧
    (exceedanceRanker xs).1.head? = some (1 / (xs.length : ℚ)) ∧
    (exceedanceRanker xs).1.getLast? = some 1 ∧
    exceedanceRanker [100, 50, 75] = ([1/3, 2/3, 1], [100, 75, 50]) := by
  have hn : 0 < xs.length := List.length_pos.2 h
  refine ⟨sortDescending_sorted xs, sortDescending_perm xs,
    plottingPositions_length _, (sortDescending_perm xs).length_eq,
    fun i hi => plottingPositions_get _ i hi,
    plottingPositions_strictMono _ hn,
    fun p hp => plottingPositions_mem _ hn p hp,
    plottingPositions_head _ hn,
    plottingPositions_getLast _ hn,
    exceedanceRanker_concrete⟩

/-- Witness for C1 at the concrete input [100, 50, 75]. -/
theorem exceedanceRanker_spec_witness :
    ([100, 50, 75] : List ℚ) ≠ [] ∧
    exceedanceRanker [100, 50, 75] = ([1/3, 2/3, 1], [100, 75, 50]) :=
  ⟨by simp, (exceedanceRanker_spec [100, 50, 75] (by simp)).2.2.2.2.2.2.2.2.2⟩

/-- C10: for the empty input series the plotting-position computation returns
the empty sequence (the Exceedance Ranker output is a pair of empty lists),
and every produced position — i.e. every division (i+1)/n the loop
evaluates — arises only when the input length n is positive, so the
denominator is never zero. -/
theorem plottingPositions_no_div_by_zero :
    exceedanceRanker ([] : List ℚ) = ([], []) ∧
    (∀ n : ℕ, plottingPositions n = [] ↔ n = 0) ∧
    (∀ n i : ℕ, i < (plottingPositions n).length → 0 < n) := by
  refine ⟨rfl, fun n => ?_, fun n i hi => ?_⟩
  · rw [← List.length_eq_zero, plottingPositions_length]
  · rw [plottingPositions_length] at hi
    exact Nat.pos_of_ne_zero (fun h0 => by omega)

/-- Witness for C10: the division producing entry 0 of the positions for a
series of length 2 has a positive denominator. -/
theorem plottingPositions_no_div_by_zero_witness :
    0 < (plottingPositions 2).length ∧ 0 < 2 :=
  ⟨by rw [plottingPositions_length]; exact Nat.zero_lt_two,
   plottingPositions_no_div_by_zero.2.2 2 0
     (by rw [plottingPositions_length]; exact Nat.zero_lt_two)⟩

/-- Predicate over parsed discharge entries: a present value below zero,
i.e. an entry the gross-error check of `ReadData` replaces. -/
def isNegativeEntry (d : Option ℚ) : Bool :=
  match d with
  | some v => decide (v < 0)
  | none => false

lemma ReadData_fst (rows : List RawRow) :
    (ReadData rows).1 =
      rows.map (fun r => { r with discharge := grossErrorCheck r.discharge }) := rfl

lemma ReadData_dates (rows : List RawRow) :
    (ReadData rows).1.map RawRow.date = rows.map RawRow.date := by
  rw [ReadData_fst, List.map_map]
  rfl

lemma grossErrorCheck_isNone (d : Option ℚ) :
    (grossErrorCheck d).isNone = (d.isNone || isNegativeEntry d) := by
  cases d with
  | none => rfl
  | some v =>
    by_cases hv : v < 0 <;> simp [grossErrorCheck, isNegativeEntry, hv]

lemma ReadData_count (rows : List RawRow) :
    (ReadData rows).2 =
      rows.countP (fun r => r.discharge.isNone) +
      rows.countP (fun r => isNegativeEntry r.discharge) := by
  show countMissing _ = _
  rw [countMissing, ← List.countP_eq_length_filter, List.countP_map]
  induction rows with
  | nil => rfl
  | cons r t ih =>
    rw [List.countP_cons, List.countP_cons, List.countP_cons, ih]
    cases hd : r.discharge with
    | none =>
      simp [Function.comp, grossErrorCheck, isNegativeEntry, hd]
      omega
    | some v =>
      by_cases hv : v < 0
      · simp [Function.comp, grossErrorCheck, isNegativeEntry, hd, hv]
        omega
      · simp [Function.comp, grossErrorCheck, isNegativeEntry, hd, hv]

/-- C4: the Record Reader replaces every below-zero discharge with the
missing marker (not zero), keeping the row in place so the date index stays
complete (same length, same dates), and its missing-value count equals the
rows already missing plus one for each replaced negative row. -/
theorem ReadData_negative_replaced (rows : List RawRow) :
    (ReadData rows).1.length = rows.length ∧
    (ReadData rows).1.map RawRow.date = rows.map RawRow.date ∧
    (∀ (i : ℕ) (r : RawRow) (v : ℚ), rows[i]? = some r → r.discharge = some v → v < 0 →
      (ReadData rows).1[i]? = some { r with discharge := none }) ∧
    (ReadData rows).2 =
      rows.countP (fun r => r.discharge.isNone) +
      rows.countP (fun r => isNegativeEntry r.discharge) := by
  refine ⟨by rw [ReadData_fst, List.length_map], ReadData_dates rows, ?_, ReadData_count rows⟩
  intro i r v hi hd hv
  have hg : grossErrorCheck r.discharge = none := by
    rw [hd]
    simp [grossErrorCheck, hv]
  rw [ReadData_fst, List.getElem?_map, hi, Option.map_some', hg]

/-- Witness for C4: a single row with discharge -5 is retained with a
missing marker in place of the -5. -/
theorem ReadData_negative_replaced_witness :
    (ReadData [⟨"USGS", "03335000", 0, some (-5), "A"⟩]).1[0]? =
      some ⟨"USGS", "03335000", 0, none, "A"⟩ :=
  (ReadData_negative_replaced [⟨"USGS", "03335000", 0, some (-5), "A"⟩]).2.2.1
    0 ⟨"USGS", "03335000", 0, some (-5), "A"⟩ (-5) rfl rfl (by norm_num)

lemma discharge_shape_after_read (rows : List RawRow) (r : RawRow)
    (hr : r ∈ (ReadData rows).1) :
    r.discharge = none ∨ ∃ v, r.discharge = some v ∧ 0 ≤ v := by
  rw [ReadData_fst, List.mem_map] at hr
  obtain ⟨r0, _, rfl⟩ := hr
  cases hd : r0.discharge with
  | none => left; simp [grossErrorCheck, hd]
  | some v =>
    by_cases hv : v < 0
    · left; simp [grossErrorCheck, hd, hv]
    · right; exact ⟨v, by simp [grossErrorCheck, hd, hv], le_of_not_lt hv⟩

/-- C7: after the Record Reader every discharge entry is either missing or a
non-negative value, and the Range Clipper preserves this invariant. -/
theorem discharge_nonneg_invariant (rows : List RawRow) :
    (∀ r ∈ (ReadData rows).1, r.discharge = none ∨ ∃ v, r.discharge = some v ∧ 0 ≤ v) ∧
    (∀ (s e : ℕ) (r : RawRow), r ∈ (ClipData (ReadData rows).1 s e).1 →
      r.discharge = none ∨ ∃ v, r.discharge = some v ∧ 0 ≤ v) := by
  refine ⟨discharge_shape_after_read rows, ?_⟩
  intro s e r hr
  have hmem : r ∈ (ReadData rows).1 := List.mem_of_mem_filter hr
  exact discharge_shape_after_read rows r hmem

/-- Witness for C7 at a one-row table with discharge 7. -/
theorem discharge_nonneg_invariant_witness :
    (⟨"USGS", "03335000", 0, some 7, "A"⟩ : RawRow).discharge = none ∨
    ∃ v, (⟨"USGS", "03335000", 0, some 7, "A"⟩ : RawRow).discharge = some v ∧ 0 ≤ v :=
  (discharge_nonneg_invariant [⟨"USGS", "03335000", 0, some 7, "A"⟩]).1
    ⟨"USGS", "03335000", 0, some 7, "A"⟩
    (by rw [ReadData_fst]; simp [grossErrorCheck])

/-- C5: the Range Clipper output is a sublist of the input table, every
retained row's date lies in the inclusive window [start, end], and the
returned count equals the number of rows of the input that are both inside
the window and missing their discharge. -/
theorem ClipData_spec (rows : List RawRow) (s e : ℕ) :
    (ClipData rows s e).1.Sublist rows ∧
    (∀ r ∈ (ClipData rows s e).1, s ≤ r.date ∧ r.date ≤ e) ∧
    (ClipData rows s e).2 =
      (rows.filter (fun r => (s ≤ r.date && r.date ≤ e) && r.discharge.isNone)).length := by
  refine ⟨List.filter_sublist rows, ?_, ?_⟩
  · intro r hr
    have := List.of_mem_filter hr
    simpa using this
  · show countMissing _ = _
    rw [countMissing, List.filter_filter]
    congr 1
    exact List.filter_congr (fun a _ => Bool.and_comm _ _)

/-- Witness for C5: the single in-window row of a concrete table satisfies
the window bounds. -/
theorem ClipData_spec_witness :
    3 ≤ (⟨"USGS", "03335000", 4, some 7, "A"⟩ : RawRow).date ∧
    (⟨"USGS", "03335000", 4, some 7, "A"⟩ : RawRow).date ≤ 5 :=
  (ClipData_spec [⟨"USGS", "03335000", 4, some 7, "A"⟩] 3 5).2.1
    ⟨"USGS", "03335000", 4, some 7, "A"⟩ (by simp [ClipData, countMissing])

/-- C9: a window that excludes every row — in particular any window with
start > end — makes the Range Clipper return the empty table and a
missing-value count of zero. -/
theorem ClipData_empty_window :
    (∀ (rows : List RawRow) (s e : ℕ), (∀ r ∈ rows, ¬(s ≤ r.date ∧ r.date ≤ e)) →
      ClipData rows s e = ([], 0)) ∧
    (∀ (rows : List RawRow) (s e : ℕ), e < s → ClipData rows s e = ([], 0)) := by
  have main : ∀ (rows : List RawRow) (s e : ℕ), (∀ r ∈ rows, ¬(s ≤ r.date ∧ r.date ≤ e)) →
      ClipData rows s e = ([], 0) := by
    intro rows s e h
    have hfil : rows.filter (fun r => s ≤ r.date && r.date ≤ e) = [] := by
      rw [List.filter_eq_nil_iff]
      intro r hr
      simpa using h r hr
    show (_, countMissing _) = _
    rw [hfil]
    rfl
  exact ⟨main, fun rows s e hlt => main rows s e (fun r _ hcon => by omega)⟩

/-- Witness for C9: a window strictly before the only row's date yields the
empty table and count zero. -/
theorem ClipData_empty_window_witness :
    ClipData [⟨"USGS", "03335000", 10, some 7, "A"⟩] 3 5 = ([], 0) :=
  ClipData_empty_window.1 [⟨"USGS", "03335000", 10, some 7, "A"⟩] 3 5
    (fun r hr => by simp at hr; subst hr; decide)

lemma sorted_head_le (l : List ℕ) (a : ℕ) (hs : l.Pairwise (· ≤ ·))
    (ha : l.head? = some a) : ∀ x ∈ l, a ≤ x := by
  cases l with
  | nil => cases ha
  | cons b t =>
    rw [List.head?_cons, Option.some_inj] at ha
    subst ha
    intro x hx
    rcases List.mem_cons.1 hx with rfl | hx
    · exact le_refl x
    · exact (List.pairwise_cons.1 hs).1 x hx

lemma sorted_le_getLast :
    ∀ (l : List ℕ) (b : ℕ), l.Pairwise (· ≤ ·) → l.getLast? = some b →
      ∀ x ∈ l, x ≤ b := by
  intro l
  induction l with
  | nil => intro b _ hb; cases hb
  | cons c t ih =>
    intro b hs hb x hx
    cases t with
    | nil =>
      simp only [List.getLast?_singleton, Option.some_inj] at hb
      subst hb
      rcases List.mem_singleton.1 hx with rfl
      exact le_refl x
    | cons d t2 =>
      rw [List.getLast?_cons_cons] at hb
      have hbmem : b ∈ d :: t2 := List.mem_of_mem_getLast? (by rw [hb]; rfl)
      rcases List.mem_cons.1 hx with rfl | hx2
      · exact (List.pairwise_cons.1 hs).1 b hbmem
      · exact ih b (List.pairwise_cons.1 hs).2 hb x hx2

/-- C6: clipping the Record Reader output with the file's own first and last
dates (the table's dates being increasing, as read from source) reproduces
the table and the missing-value count exactly. -/
theorem ReadData_ClipData_roundtrip (rows : List RawRow) (firstD lastD : ℕ)
    (hsorted : (rows.map RawRow.date).Pairwise (· ≤ ·))
    (hfirst : ((ReadData rows).1.map RawRow.date).head? = some firstD)
    (hlast : ((ReadData rows).1.map RawRow.date).getLast? = some lastD) :
    ClipData (ReadData rows).1 firstD lastD = ReadData rows := by
  rw [ReadData_dates rows] at hfirst hlast
  have hall : ∀ r ∈ (ReadData rows).1, firstD ≤ r.date ∧ r.date ≤ lastD := by
    intro r hr
    have hmem : r.date ∈ (ReadData rows).1.map RawRow.date := List.mem_map_of_mem _ hr
    rw [ReadData_dates rows] at hmem
    exact ⟨sorted_head_le _ _ hsorted hfirst _ hmem,
      sorted_le_getLast _ _ hsorted hlast _ hmem⟩
  have hfilter :
      (ReadData rows).1.filter (fun r => firstD ≤ r.date && r.date ≤ lastD) =
        (ReadData rows).1 := by
    apply List.filter_eq_self.2
    intro r hr
    simpa using hall r hr
  show (_, countMissing _) = _
  rw [hfilter]
  rfl

/-- Witness for C6 on a concrete two-row file with increasing dates. -/
theorem ReadData_ClipData_roundtrip_witness :
    ClipData (ReadData [⟨"USGS", "03335000", 1, some 7, "A"⟩,
                        ⟨"USGS", "03335000", 2, some (-3), "A"⟩]).1 1 2 =
      ReadData [⟨"USGS", "03335000", 1, some 7, "A"⟩,
                ⟨"USGS", "03335000", 2, some (-3), "A"⟩] :=
  ReadData_ClipData_roundtrip _ 1 2 (by simp)
    (by rw [ReadData_dates]; rfl)
    (by rw [ReadData_dates]; rfl)

lemma GetMonthlyAverages_cell (nStats : ℕ) (rows : List MonthlyRow) (m j : ℕ)
    (hm1 : 1 ≤ m) (hm12 : m ≤ 12) (hj : j < nStats) :
    cellAt (GetMonthlyAverages nStats rows) m j =
      meanSkipNA ((monthBucket rows m).map (fun r => r.values.getD j none)) := by
  have hm : m - 1 < 12 := by omega
  have hmm : m - 1 + 1 = m := by omega
  have h1 : (GetMonthlyAverages nStats rows)[m - 1]? =
      some (m, bucketMeans nStats (monthBucket rows m)) := by
    rw [GetMonthlyAverages, List.getElem?_map, List.getElem?_range hm, Option.map_some', hmm]
  have h2 : (bucketMeans nStats (monthBucket rows m))[j]? =
      some (meanSkipNA ((monthBucket rows m).map (fun r => r.values.getD j none))) := by
    rw [bucketMeans, List.getElem?_map, List.getElem?_range hj, Option.map_some']
  rw [cellAt, List.getD_eq_getElem?_getD (GetMonthlyAverages nStats rows) (m - 1) (0, []),
    h1, Option.getD_some, List.getD_eq_getElem?_getD, h2, Option.getD_some]

/-- C3: for every input, the Monthly Averager output has exactly 12
columns labeled 1 through 12 in calendar order — independent of the input
rows — and every column has one entry per input statistic. -/
theorem GetMonthlyAverages_shape (nStats : ℕ) (rows : List MonthlyRow) :
    (GetMonthlyAverages nStats rows).length = 12 ∧
    (GetMonthlyAverages nStats rows).map Prod.fst =
      [1, 2, 3, 4, 5, 6, 7, 8, 9, 10, 11, 12] ∧
    ∀ c ∈ GetMonthlyAverages nStats rows, c.2.length = nStats := by
  refine ⟨?_, rfl, ?_⟩
  · simp only [GetMonthlyAverages, List.length_map, List.length_range]
  · intro c hc
    rw [GetMonthlyAverages, List.mem_map] at hc
    obtain ⟨i, _, rfl⟩ := hc
    simp only [bucketMeans, List.length_map, List.length_range]

/-- Witness for C3: the January column of the one-statistic empty table has
one entry. -/
theorem GetMonthlyAverages_shape_witness :
    ((1, [(none : Option ℚ)]) : ℕ × List (Option ℚ)).2.length = 1 :=
  (GetMonthlyAverages_shape 1 []).2.2 (1, [none]) (by decide)

/-- C2: for 1 ≤ m ≤ 12 and a valid statistic index, the Monthly Averager
cell for month m is the arithmetic mean of exactly the non-missing entries
of that statistic in the month-m bucket, missing when the bucket has no
non-missing entry; and values 10 and 20 both tagged month 1 average to 15
in column 1. -/
theorem GetMonthlyAverages_mean (nStats : ℕ) (rows : List MonthlyRow) (m j : ℕ)
    (hm1 : 1 ≤ m) (hm12 : m ≤ 12) (hj : j < nStats) :
    ((((monthBucket rows m).map (fun r => r.values.getD j none)).filterMap id ≠ [] →
      cellAt (GetMonthlyAverages nStats rows) m j =
        some (((((monthBucket rows m).map (fun r => r.values.getD j none)).filterMap id).sum) /
          (((((monthBucket rows m).map (fun r => r.values.getD j none)).filterMap id).length : ℚ)))) ∧
    ((((monthBucket rows m).map (fun r => r.values.getD j none)).filterMap id = [] →
      cellAt (GetMonthlyAverages nStats rows) m j = none)) ∧
    cellAt (GetMonthlyAverages 1 [⟨1, [some 10]⟩, ⟨1, [some 20]⟩]) 1 0 = some 15) := by
  rw [GetMonthlyAverages_cell nStats rows m j hm1 hm12 hj, meanSkipNA]
  refine ⟨?_, ?_, ?_⟩
  · intro hne
    rw [if_neg (fun h0 => hne (List.length_eq_zero.1 h0))]
  · intro hnil
    rw [if_pos (by rw [hnil]; rfl)]
  · rw [GetMonthlyAverages_cell 1 _ 1 0 (le_refl 1) (by omega) Nat.zero_lt_one]
    show meanSkipNA [some 10, some 20] = some 15
    have hfm : (([some 10, some 20] : List (Option ℚ)).filterMap id) = [10, 20] := rfl
    rw [meanSkipNA, hfm]
    norm_num

/-- Witness for C2 at the concrete two-row January table. -/
theorem GetMonthlyAverages_mean_witness :
    cellAt (GetMonthlyAverages 1 [⟨1, [some 10]⟩, ⟨1, [some 20]⟩]) 1 0 = some 15 :=
  (GetMonthlyAverages_mean 1 [⟨1, [some 10]⟩, ⟨1, [some 20]⟩] 1 0
    (le_refl 1) (by omega) Nat.zero_lt_one).2.2

/-- C8: one run writes exactly the six named PNG files, each with dpi 96 and
figure size 9 by 6.5, under global base font size 20; the six chart
specifications are the only persisted outputs. -/
theorem charts_spec :
    charts.map ChartSpec.filename =
      ["DailyDischarge5Year.png", "AnnualCoeffVar.png", "AnnualTQmean.png",
       "AnnualRBindex.png", "MonthlyMeanFlow.png", "ExceedanceProbability.png"] ∧
    charts.length = 6 ∧
    (∀ c ∈ charts, c.dpi = 96 ∧ c.figWidth = 9 ∧ c.figHeight = 13/2) ∧
    fontSize = 20 := by
  refine ⟨rfl, rfl, ?_, rfl⟩
  intro c hc
  fin_cases hc <;> exact ⟨rfl, rfl, rfl⟩

/-- Witness for C8 at the first chart specification. -/
theorem charts_spec_witness :
    (⟨"DailyDischarge5Year.png", 9, 13/2, 96⟩ : ChartSpec).dpi = 96 ∧
    (⟨"DailyDischarge5Year.png", 9, 13/2, 96⟩ : ChartSpec).figWidth = 9 ∧
    (⟨"DailyDischarge5Year.png", 9, 13/2, 96⟩ : ChartSpec).figHeight = 13/2 :=
  charts_spec.2.2.1 _ (List.mem_cons_self _ _)

end Program11
